import Mathlib

/-!
Shallow embedding of the Senate delegated-proof-of-stake consensus engine
from `consensus/senate/consensus.go`: header verification (stateless and
cascading), preparation, finalization and seal hashing.

External collaborators of the engine (chain header reader, snapshot store,
header-extra codec, elliptic-curve crypto, wall clock) live outside the
provided source file; they are modelled as explicit oracle fields of an
environment record `Env`, so every engine function is a pure function of
the environment and its arguments.  Machine integers are `Nat` with an
explicit `% 2^64` where Go's `uint64` overflow can matter.
-/

set_option autoImplicit false

namespace Senate

/-- The modulus of Go's `uint64`. -/
def U64MOD : Nat := 2 ^ 64

/-- Reduce a natural number to `uint64` range. -/
def u64 (n : Nat) : Nat := n % U64MOD

/-- Go's wrapping `uint64` subtraction `a - b` (for `a` already reduced). -/
def u64sub (a b : Nat) : Nat := u64 (a + U64MOD - u64 b)

/-- Reinterpret a `uint64` value as Go's `int64` (two's complement). -/
def toInt64 (n : Nat) : Int :=
  if n < 2 ^ 63 then (n : Int) else (n : Int) - (U64MOD : Int)

/-- Go's conversion `uint64(i)` of an `int64` value. -/
def uint64OfInt (i : Int) : Nat := (i % (U64MOD : Int)).toNat

/-- Modelled from the spec: the 32 vanity bytes at the head of a header's
extra field. `extraVanity` is declared in a package file not provided with
the source. -/
def extraVanity : Nat := 32

/-- Modelled from the spec: the 65 seal (signature) bytes at the tail of a
header's extra field. `extraSeal` is declared in a package file not
provided with the source; it equals `crypto.SignatureLength`. -/
def extraSeal : Nat := 65

/-- Modelled from the spec: the constant block difficulty returned by
`CalcDifficulty` (spec section 4.I: `Difficulty = 1`). -/
def defaultDifficulty : Nat := 1

/-- The Keccak-256 hash of an empty uncle list, `types.CalcUncleHash(nil)`. -/
def uncleHash : Nat :=
  0x1dcc4de8dec75d7aab85b567b6ccd41ad312451b948a7413f0a142fd40d49347

/-- The composite trie root of a snapshot: eight component hashes.
Hashes are modelled as natural numbers. -/
structure Root where
  candidateHash : Nat
  configHash : Nat
  declareHash : Nat
  delegateHash : Nat
  epochHash : Nat
  mintCntHash : Nat
  proposalHash : Nat
  voteHash : Nat
deriving DecidableEq, Repr

/-- The zero value of `Root` (Go's zero-initialized struct). -/
def Root.zero : Root := ⟨0, 0, 0, 0, 0, 0, 0, 0⟩

/-- The consensus payload carried in a header's extra field.  The replay
log lists (declares, cancels, votes, ...) are consumed opaquely by the
snapshot-apply oracle and are elided here. -/
structure HeaderExtra where
  root : Root
  epoch : Nat
  epochTime : Nat
deriving DecidableEq, Repr

/-- Runtime consensus parameters (`params.SenateConfig`). -/
structure SenateConfig where
  period : Nat
  epoch : Nat
  maxValidatorsCount : Nat
  minCandidateBalance : Nat
  minVoterBalance : Nat
  blockReward : Nat
deriving DecidableEq, Repr

/-- A block header (`types.Header`), with hashes and addresses as `Nat`.
`number` is `Option Nat` because Go's `*big.Int` may be nil. -/
structure Header where
  parentHash : Nat
  uncleHash : Nat
  coinbase : Nat
  root : Nat
  txHash : Nat
  receiptHash : Nat
  bloom : Nat
  difficulty : Nat
  number : Option Nat
  gasLimit : Nat
  gasUsed : Nat
  time : Nat
  extra : List Nat
  mixDigest : Nat
  nonce : Nat
deriving DecidableEq, Repr

/-- The closed set of error outcomes of the engine.  Constructors whose
doc mentions a Go runtime panic model control flow that aborts the
process rather than returning an error value. -/
inductive VError where
  /-- `errUnknownBlock` -/
  | unknownBlock
  /-- `consensus.ErrFutureBlock` -/
  | futureBlock
  /-- `consensus.ErrUnknownAncestor` -/
  | unknownAncestor
  /-- `errMissingVanity` -/
  | missingVanity
  /-- `errMissingSignature` -/
  | missingSignature
  /-- `errInvalidMixDigest` -/
  | invalidMixDigest
  /-- `errInvalidUncleHash` -/
  | invalidUncleHash
  /-- `ErrInvalidTimestamp` -/
  | invalidTimestamp
  /-- `errUnauthorized` -/
  | unauthorized
  /-- a failure of the header-extra codec -/
  | malformedExtra
  /-- `errors.New("invalid trie root")` -/
  | invalidTrieRoot
  /-- a failure to load a snapshot from the store -/
  | snapshotMissing
  /-- `errors.New("failed to write snapshot")` -/
  | snapshotWriteFailed
  /-- an election failure reported by `tryElect` -/
  | electionFailed
  /-- a Go nil-pointer dereference (runtime panic) -/
  | nilPointer
  /-- the Go runtime panic raised by slicing `Extra[:len-65]` when
  `len(Extra) < 65` in `encodeSigHeader` -/
  | shortExtraAbort
  /-- a failure of `crypto.Ecrecover` -/
  | cryptoError
  /-- the `panic(err)` in `Finalize` when the replayed extra differs from
  the header's extra (`err` may even be nil there) -/
  | mismatchHeaderExtra
deriving DecidableEq, Repr

/-- The environment of oracles for the engine's external collaborators:
chain reader, header-extra codec, snapshot store (with snapshot state
type `σ`), configuration table, crypto, slot scheduler and wall clock. -/
structure Env (σ : Type) where
  /-- `time.Now().Unix()` -/
  now : Int
  /-- `*senate.config`, the engine's default configuration -/
  senateConfig : SenateConfig
  /-- `chain.GetHeader(hash, number)` -/
  getHeader : Nat → Nat → Option Header
  /-- `header.Hash()` of the full sealed header -/
  headerHash : Header → Nat
  /-- `decodeHeaderExtra`: decode the consensus payload from the raw
  extra bytes -/
  decodeExtra : List Nat → Except VError HeaderExtra
  /-- `HeaderExtra.Encode` -/
  encodeExtra : HeaderExtra → Except VError (List Nat)
  /-- `senate.chainConfigByHash(configHash)` -/
  chainConfigByHash : Nat → Except VError SenateConfig
  /-- `senate.chainConfig(parent)` (used by `Finalize`) -/
  chainConfigOf : Option Header → Except VError SenateConfig
  /-- `newSnapshot(senate.db)`: a fresh empty snapshot -/
  newSnapshot : Except VError σ
  /-- `loadSnapshot(senate.db, root)` -/
  loadSnapshot : Root → Except VError σ
  /-- `snap.apply(header, headerExtra)` -/
  applySnap : σ → Header → HeaderExtra → Except VError σ
  /-- `snap.Root()` -/
  snapRoot : σ → Except VError Root
  /-- `snap.Commit(root)`; `true` means the write succeeded -/
  commitSnap : σ → Root → Bool
  /-- `crypto.Ecrecover` over the seal hash and the trailing signature,
  yielding the signer address -/
  cryptoEcrecover : Header → Except VError Nat
  /-- `senate.inTurn(config, parent, time, signer)` -/
  inTurn : SenateConfig → Header → Nat → Nat → Bool
  /-- `senate.processTransactions`, as a transformer of the replayed
  extra; the snapshot argument is an Option because `Finalize` can pass
  the snapshot code a nil pointer (see `Finalize`) -/
  processTx : SenateConfig → Header → Option σ → HeaderExtra → HeaderExtra
  /-- `senate.tryElect`, yielding the final replayed extra; the snapshot
  argument is an Option because `Finalize` can pass the snapshot code a
  nil pointer (see `Finalize`) -/
  tryElect : SenateConfig → Header → Option σ → HeaderExtra → Except VError HeaderExtra

variable {σ : Type}

/-- The serialization input of `encodeSigHeader`: every header field in
order, with the trailing `extraSeal` bytes of the extra field dropped.
The RLP list framing of the external rlp package is elided; only the
field content matters for the properties proved here. -/
def sigFields (header : Header) : List Nat :=
  [header.parentHash, header.uncleHash, header.coinbase, header.root,
   header.txHash, header.receiptHash, header.bloom, header.difficulty,
   header.number.getD 0, header.gasLimit, header.gasUsed, header.time] ++
  header.extra.take (header.extra.length - extraSeal) ++
  [header.mixDigest, header.nonce]

/-- Modelled from the spec: Keccak-256 of the external crypto package,
abstracted as a fixed deterministic function of the serialized bytes
(only determinism is relied upon). -/
def keccak256 (bytes : List Nat) : Nat :=
  bytes.foldl (fun acc b => u64 (acc * 1000003 + b + 1)) 17

/-- `encodeSigHeader`: serialize a header without its seal bytes.  Go
slices `Extra[:len(Extra)-65]`, which panics when the extra field is
shorter than 65 bytes; the panic is modelled by `shortExtraAbort`. -/
def encodeSigHeader (header : Header) : Except VError (List Nat) :=
  if header.extra.length < extraSeal then .error .shortExtraAbort
  else .ok (sigFields header)

/-- `SealHash`: the hash of a block prior to it being sealed. -/
def SealHash (header : Header) : Except VError Nat :=
  match encodeSigHeader header with
  | .error e => .error e
  | .ok bytes => .ok (keccak256 bytes)

/-- `SenateRLP`: the bytes to be signed for sealing. -/
def SenateRLP (header : Header) : Except VError (List Nat) :=
  encodeSigHeader header

/-- `ecrecover`: extract the signer address from a sealed header.  The
LRU cache is observationally transparent and elided. -/
def ecrecover (env : Env σ) (header : Header) : Except VError Nat :=
  if header.extra.length < extraSeal then .error .missingSignature
  else env.cryptoEcrecover header

/-- `senate.verifySeal`: recover the signer and check it is in turn. -/
def verifySeal (env : Env σ) (config : SenateConfig) (header parent : Header) :
    Except VError Unit :=
  if header.number.getD 0 = 0 then .error .unknownBlock
  else
    match ecrecover env header with
    | .error e => .error e
    | .ok signer =>
      if env.inTurn config parent header.time signer then .ok ()
      else .error .unauthorized

/-- Parent resolution of `verifyCascadingFields`: the last passed parent
or a chain lookup, then the number and hash linkage checks.  (A stored
parent header never has a nil number; Go would panic on one.) -/
def resolveParent (env : Env σ) (header : Header) (number : Nat)
    (parents : List Header) : Option Header :=
  let p? := if parents.length > 0 then parents.getLast?
            else env.getHeader header.parentHash (number - 1)
  match p? with
  | none => none
  | some p =>
    if p.number = some (number - 1) ∧ env.headerHash p = header.parentHash
    then some p else none

/-- The snapshot/config loading stage of `verifyCascadingFields`: for a
genesis parent the fresh snapshot, the engine's own config and the
child's own extra standing in for the parent extra; otherwise the parent
extra is decoded, the config resolved by its hash and the snapshot
loaded at the parent's declared root. -/
def loadStage (env : Env σ) (parent : Header) (headerExtra : HeaderExtra) :
    Except VError (HeaderExtra × SenateConfig × σ) :=
  if parent.number = some 0 then
    match env.newSnapshot with
    | .error e => .error e
    | .ok snap => .ok (headerExtra, env.senateConfig, snap)
  else
    match env.decodeExtra parent.extra with
    | .error e => .error e
    | .ok parentExtra =>
      match env.chainConfigByHash parentExtra.root.configHash with
      | .error e => .error e
      | .ok config =>
        match env.loadSnapshot parentExtra.root with
        | .error e => .error e
        | .ok snap => .ok (parentExtra, config, snap)

/-- The epoch-continuity condition of `verifyCascadingFields` (lines
187-191): the pair equals the parent's, or the epoch advances by one
with the epoch time equal to the header's time. -/
def epochContinuity (hx px : HeaderExtra) (htime : Nat) : Bool :=
  (hx.epoch == px.epoch && hx.epochTime == px.epochTime) ||
    (hx.epoch == px.epoch + 1 && hx.epochTime == htime)

/-- The prefix of `verifyCascadingFields` up to (and including) the
recomputation of the composite root: parent resolution, timestamp check,
extra decoding, snapshot/config loading, epoch continuity, snapshot
apply and root computation.  On success it yields the parent, the
decoded child extra, the parent extra in effect, the config, the applied
snapshot and the recomputed root. -/
def vcfRoot (env : Env σ) (header : Header) (parents : List Header) :
    Except VError (Header × HeaderExtra × HeaderExtra × SenateConfig × σ × Root) :=
  let number := header.number.getD 0
  match resolveParent env header number parents with
  | none => .error .unknownAncestor
  | some parent =>
    if header.time < parent.time then .error .invalidTimestamp
    else
      match env.decodeExtra header.extra with
      | .error e => .error e
      | .ok headerExtra =>
        match loadStage env parent headerExtra with
        | .error e => .error e
        | .ok (parentExtra, config, snap) =>
          if epochContinuity headerExtra parentExtra header.time then
            match env.applySnap snap header headerExtra with
            | .error e => .error e
            | .ok snap2 =>
              match env.snapRoot snap2 with
              | .error e => .error e
              | .ok root => .ok (parent, headerExtra, parentExtra, config, snap2, root)
          else .error .invalidTimestamp

/-- `verifyCascadingFields`: the parent-dependent header checks.  The
second component records the root passed to `snap.Commit` when the
commit happened (`none` when no commit was performed). -/
def verifyCascadingFields (env : Env σ) (header : Header)
    (parents : List Header) : Except VError Unit × Option Root :=
  let number := header.number.getD 0
  if number = 0 then (.ok (), none)
  else
    match vcfRoot env header parents with
    | .error e => (.error e, none)
    | .ok (parent, headerExtra, _, config, snap, root) =>
      if root = headerExtra.root then
        match verifySeal env config header parent with
        | .error e => (.error e, none)
        | .ok _ =>
          if env.commitSnap snap root then (.ok (), some root)
          else (.error .snapshotWriteFailed, none)
      else (.error .invalidTrieRoot, none)

/-- `senate.verifyHeader`: the stateless checks, then the cascading
checks. -/
def verifyHeader (env : Env σ) (header : Header) (parents : List Header) :
    Except VError Unit :=
  match header.number with
  | none => .error .unknownBlock
  | some _ =>
    if uint64OfInt env.now < header.time then .error .futureBlock
    else if header.extra.length < extraVanity then .error .missingVanity
    else if header.extra.length < extraVanity + extraSeal then .error .missingSignature
    else if header.mixDigest ≠ 0 then .error .invalidMixDigest
    else if header.uncleHash ≠ uncleHash then .error .invalidUncleHash
    else (verifyCascadingFields env header parents).1

/-- The timestamp computation shared by both branches of `Prepare`:
`header.Time = parent.Time + config.Period`, raised to the wall clock
when `int64(header.Time) < now`. -/
def prepareTime (now : Int) (parentTime period : Nat) : Nat :=
  let t := u64 (parentTime + period)
  if toInt64 t < now then uint64OfInt now else t

/-- The trailing part of `Prepare`: encode the extra payload and frame
the header's extra as vanity ++ payload ++ zeroed seal. -/
def finishPrepare (env : Env σ) (header : Header) (headerExtra : HeaderExtra) :
    Except VError (Header × HeaderExtra) :=
  match env.encodeExtra headerExtra with
  | .error e => .error e
  | .ok data =>
    let base := if header.extra.length < extraVanity
      then header.extra ++ List.replicate (extraVanity - header.extra.length) 0
      else header.extra
    let base := base.take extraVanity
    .ok ({ header with extra := base ++ data ++ List.replicate extraSeal 0 },
         headerExtra)

/-- `senate.Prepare`: initialize the consensus fields of a header.  The
result carries the updated header together with the `HeaderExtra`
payload the code computed and encoded into it. -/
def Prepare (env : Env σ) (header : Header) : Except VError (Header × HeaderExtra) :=
  let header := { header with mixDigest := 0, difficulty := defaultDifficulty }
  let number := header.number.getD 0
  match env.getHeader header.parentHash (number - 1) with
  | none => .error .unknownAncestor
  | some parent =>
    if number = 1 then
      let config := env.senateConfig
      let t := prepareTime env.now parent.time config.period
      let header := { header with time := t }
      finishPrepare env header { root := Root.zero, epoch := 1, epochTime := t }
    else
      match env.decodeExtra parent.extra with
      | .error e => .error e
      | .ok parentExtra =>
        match env.chainConfigByHash parentExtra.root.configHash with
        | .error e => .error e
        | .ok config =>
          let t := prepareTime env.now parent.time config.period
          let header := { header with time := t }
          let duration := u64sub t parentExtra.epochTime
          let headerExtra : HeaderExtra :=
            if 1 ≤ duration / config.epoch ∧ 0 < duration % config.epoch then
              { root := parentExtra.root, epoch := parentExtra.epoch + 1,
                epochTime := t }
            else
              { root := parentExtra.root, epoch := parentExtra.epoch,
                epochTime := parentExtra.epochTime }
          finishPrepare env header headerExtra

/-- `senate.Finalize`.  The Go function has no error return; its failure
checks call `panic`, so an `.error` result of this model denotes a Go
runtime abort.  One failure path does neither: in the height >= 2 branch
the statement `parentHeaderExtra, err := decodeHeaderExtra(parent)`
declares a fresh `err` that shadows the function-scope one, so the error
of the following `snap, err = loadSnapshot(...)` assignment is dropped
when the block ends, the nil-check after the block reads the outer (nil)
`err`, and execution continues with a nil snapshot pointer — modelled by
passing `none` to the downstream oracles.  The parent-decode failure in
that block checks the inner `err` immediately and does panic.  A nil
parent at height >= 2 is dereferenced inside decodeHeaderExtra, a
runtime panic.  State mutation (rewards, state root) is carried by the
oracles and elided. -/
def Finalize (env : Env σ) (header : Header) : Except VError Unit :=
  let number := header.number.getD 0
  match env.decodeExtra header.extra with
  | .error e => .error e
  | .ok headerExtra =>
    let parent? := env.getHeader header.parentHash (number - 1)
    let snapE : Except VError (Option σ) :=
      if number ≤ 1 then
        match env.newSnapshot with
        | .error e => .error e
        | .ok s => .ok (some s)
      else
        match parent? with
        | none => .error .nilPointer
        | some parent =>
          match env.decodeExtra parent.extra with
          | .error e => .error e
          | .ok parentExtra =>
            match env.loadSnapshot parentExtra.root with
            | .error _ => .ok none
            | .ok s => .ok (some s)
    match snapE with
    | .error e => .error e
    | .ok snap =>
      match env.chainConfigOf parent? with
      | .error e => .error e
      | .ok config =>
        let temp : HeaderExtra :=
          { root := headerExtra.root, epoch := headerExtra.epoch,
            epochTime := headerExtra.epochTime }
        let temp := env.processTx config header snap temp
        match env.tryElect config header snap temp with
        | .error e => .error e
        | .ok temp2 =>
          if temp2 = headerExtra then .ok () else .error .mismatchHeaderExtra

/-- Modelled from the spec: the string rendering of a single hash by the
external common.Hash type ("0x" followed by the digits); only the
placement of the rendered value inside a larger string is relied upon. -/
def hashString (h : Nat) : String := "0x" ++ toString h

/-- `Root2String`: the diagnostic formatter, as the exact interleaving of
the Sprintf format segments with its arguments (note the duplicated
CandidateHash label and argument in the fifth slot). -/
def Root2String (root : Root) : String :=
  "\nCandidateHash=" ++ hashString root.candidateHash ++
  " \nConfigHash=" ++ hashString root.configHash ++
  " \nDeclareHash=" ++ hashString root.declareHash ++
  " \nDelegateHash= " ++ hashString root.delegateHash ++
  " \nCandidateHash=" ++ hashString root.candidateHash ++
  " \nEpochHash=" ++ hashString root.epochHash ++
  " \nMintCntHash=" ++ hashString root.mintCntHash ++
  " \nProposalHash=" ++ hashString root.proposalHash ++
  " \nVoteHash=" ++ hashString root.voteHash

/-- Containment of one string in another. -/
def strIncludes (hay needle : String) : Prop :=
  ∃ p s : String, hay = p ++ needle ++ s

/-- The composite root a correct header must declare, phrased as the spec
does: load the snapshot at the parent's declared root (or build a fresh
one when the parent is the genesis block), apply the header's extra log,
and take the root. -/
def recomputeRoot (env : Env σ) (header parent : Header) (hx : HeaderExtra) :
    Except VError Root :=
  match (if parent.number = some 0 then env.newSnapshot
         else match env.decodeExtra parent.extra with
              | .error e => .error e
              | .ok px => env.loadSnapshot px.root) with
  | .error e => .error e
  | .ok snap =>
    match env.applySnap snap header hx with
    | .error e => .error e
    | .ok snap2 => env.snapRoot snap2

/-! ## Helper lemmas -/

deriving instance DecidableEq for Except

theorem strIncludes_appendRight (s t n : String) (h : strIncludes s n) :
    strIncludes (s ++ t) n := by
  obtain ⟨p, q, rfl⟩ := h
  exact ⟨p, q ++ t, by rw [String.append_assoc, String.append_assoc]⟩

theorem strIncludes_appendLeftAll (t n : String) : strIncludes (t ++ n) n :=
  ⟨t, "", by rw [String.append_assoc]; simp⟩

/-! ## Concrete test fixtures (snapshot state type `Unit`) -/

/-- A fixed nontrivial composite root used by the concrete scenarios. -/
def rootA : Root := ⟨10, 20, 30, 40, 50, 60, 70, 80⟩

/-- The configuration of the spec's concrete scenarios:
Period = 3, Epoch = 30. -/
def cfgA : SenateConfig := ⟨3, 30, 21, 0, 0, 0⟩

/-- A baseline oracle environment over the trivial snapshot state, in
which every store and crypto operation succeeds. -/
def baseEnv : Env Unit where
  now := 1000000
  senateConfig := cfgA
  getHeader := fun _ _ => none
  headerHash := fun h => h.nonce
  decodeExtra := fun _ => .error .malformedExtra
  encodeExtra := fun _ => .ok []
  chainConfigByHash := fun _ => .ok cfgA
  chainConfigOf := fun _ => .ok cfgA
  newSnapshot := .ok ()
  loadSnapshot := fun _ => .ok ()
  applySnap := fun _ _ _ => .ok ()
  snapRoot := fun _ => .ok Root.zero
  commitSnap := fun _ _ => true
  cryptoEcrecover := fun _ => .ok 7
  inTurn := fun _ _ _ _ => true
  processTx := fun _ _ _ x => x
  tryElect := fun _ _ _ x => .ok x

/-! ## C8: the diagnostic formatter lists every component hash -/

/-- C8: for every Root value, the diagnostic string formatter Root2String
produces a string that contains every one of the eight component hashes
(CandidateHash, ConfigHash, DeclareHash, DelegateHash, EpochHash,
MintCntHash, ProposalHash, VoteHash).  The formatter mislabels the fifth
slot (a duplicated CandidateHash), but every component value does occur
in the output. -/
theorem Root2String_contains_all_components (root : Root) :
    strIncludes (Root2String root) (hashString root.candidateHash) ∧
    strIncludes (Root2String root) (hashString root.configHash) ∧
    strIncludes (Root2String root) (hashString root.declareHash) ∧
    strIncludes (Root2String root) (hashString root.delegateHash) ∧
    strIncludes (Root2String root) (hashString root.epochHash) ∧
    strIncludes (Root2String root) (hashString root.mintCntHash) ∧
    strIncludes (Root2String root) (hashString root.proposalHash) ∧
    strIncludes (Root2String root) (hashString root.voteHash) := by
  unfold Root2String
  refine ⟨?_, ?_, ?_, ?_, ?_, ?_, ?_, ?_⟩
  · iterate 16 apply strIncludes_appendRight
    exact strIncludes_appendLeftAll _ _
  · iterate 14 apply strIncludes_appendRight
    exact strIncludes_appendLeftAll _ _
  · iterate 12 apply strIncludes_appendRight
    exact strIncludes_appendLeftAll _ _
  · iterate 10 apply strIncludes_appendRight
    exact strIncludes_appendLeftAll _ _
  · iterate 6 apply strIncludes_appendRight
    exact strIncludes_appendLeftAll _ _
  · iterate 4 apply strIncludes_appendRight
    exact strIncludes_appendLeftAll _ _
  · iterate 2 apply strIncludes_appendRight
    exact strIncludes_appendLeftAll _ _
  · exact strIncludes_appendLeftAll _ _

/-! ## C5: the seal hash is independent of the seal bytes -/

/-- C5: for every pair of headers whose Extra fields are each at least 65
bytes long and which agree on every header field and on all but the
trailing 65 bytes of Extra, SealHash gives the same result: the seal
hash is independent of the seal bytes. -/
theorem SealHash_independent_of_seal (h1 h2 : Header)
    (e1 : extraSeal ≤ h1.extra.length) (e2 : extraSeal ≤ h2.extra.length)
    (he : h1.extra.take (h1.extra.length - extraSeal) =
          h2.extra.take (h2.extra.length - extraSeal))
    (hp : h1.parentHash = h2.parentHash) (hu : h1.uncleHash = h2.uncleHash)
    (hc : h1.coinbase = h2.coinbase) (hr : h1.root = h2.root)
    (ht : h1.txHash = h2.txHash) (hrh : h1.receiptHash = h2.receiptHash)
    (hb : h1.bloom = h2.bloom) (hd : h1.difficulty = h2.difficulty)
    (hnum : h1.number = h2.number) (hg : h1.gasLimit = h2.gasLimit)
    (hgu : h1.gasUsed = h2.gasUsed) (htm : h1.time = h2.time)
    (hm : h1.mixDigest = h2.mixDigest) (hno : h1.nonce = h2.nonce) :
    SealHash h1 = SealHash h2 := by
  unfold SealHash encodeSigHeader sigFields
  rw [if_neg (by omega), if_neg (by omega)]
  rw [hp, hu, hc, hr, ht, hrh, hb, hd, hnum, hg, hgu, htm, hm, hno, he]

/-- First concrete header for the seal-hash witness. -/
def sealW1 : Header :=
  { parentHash := 1, uncleHash := 2, coinbase := 3, root := 4, txHash := 5,
    receiptHash := 6, bloom := 7, difficulty := 8, number := some 9,
    gasLimit := 10, gasUsed := 11, time := 12,
    extra := List.replicate 70 1, mixDigest := 0, nonce := 13 }

/-- The same header with completely different trailing 65 seal bytes. -/
def sealW2 : Header :=
  { sealW1 with extra := List.replicate 5 1 ++ List.replicate 65 9 }

theorem SealHash_independent_of_seal_witness : SealHash sealW1 = SealHash sealW2 :=
  SealHash_independent_of_seal sealW1 sealW2 (by decide) (by decide) (by decide)
    rfl rfl rfl rfl rfl rfl rfl rfl rfl rfl rfl rfl rfl rfl

/-! ## C4: the parent/child timestamp check -/

/-- C4 (amended): verifyCascadingFields rejects a non-genesis header with
ErrInvalidTimestamp when its Time is strictly below its parent's Time,
and acceptance implies parent.Time is at most header.Time; equality of
the two timestamps is not rejected (the code tests `parent.Time >
header.Time`, not `>=`). -/
theorem vcf_timestamp_check (env : Env σ) (header : Header)
    (parents : List Header) (n : Nat) (hn : header.number = some n)
    (hn0 : n ≠ 0) :
    (∀ parent, resolveParent env header n parents = some parent →
      header.time < parent.time →
      verifyCascadingFields env header parents = (.error .invalidTimestamp, none)) ∧
    ((verifyCascadingFields env header parents).1 = .ok () →
      ∀ parent, resolveParent env header n parents = some parent →
      parent.time ≤ header.time) := by
  have key : ∀ parent, resolveParent env header n parents = some parent →
      header.time < parent.time →
      verifyCascadingFields env header parents = (.error .invalidTimestamp, none) := by
    intro parent hres hlt
    simp [verifyCascadingFields, vcfRoot, hn, hres, if_neg hn0, if_pos hlt]
  refine ⟨key, ?_⟩
  intro hok parent hres
  by_contra hlt
  push_neg at hlt
  rw [key parent hres hlt] at hok
  simp at hok

/-- The parent of the concrete equal-timestamp scenario. -/
def parentC4 : Header :=
  { parentHash := 0, uncleHash := uncleHash, coinbase := 0, root := 0,
    txHash := 0, receiptHash := 0, bloom := 0, difficulty := 1,
    number := some 1, gasLimit := 0, gasUsed := 0, time := 500,
    extra := [1], mixDigest := 0, nonce := 77 }

/-- A child whose Time equals its parent's Time exactly. -/
def childC4 : Header :=
  { parentC4 with
    number := some 2
    parentHash := 77
    time := 500
    extra := List.replicate 97 2
    nonce := 0 }

/-- The same child with a Time strictly below the parent's. -/
def childC4b : Header := { childC4 with time := 400 }

/-- An environment in which every oracle succeeds and the recomputed
root matches the declared one for the C4 scenario. -/
def envC4 : Env Unit :=
  { baseEnv with
    decodeExtra := fun b =>
      if b = [1] then .ok ⟨rootA, 4, 400⟩
      else if b = List.replicate 97 2 then .ok ⟨rootA, 4, 400⟩
      else .error .malformedExtra
    snapRoot := fun _ => .ok rootA }

/-- C4 counterexample: a non-genesis header whose Time equals its
parent's Time (not strictly greater) is fully accepted by
verifyCascadingFields, refuting the claim that every such header is
rejected with ErrInvalidTimestamp. -/
theorem vcf_accepts_equal_timestamp :
    verifyCascadingFields envC4 childC4 [parentC4] = (.ok (), some rootA) ∧
    childC4.time = parentC4.time := by decide

theorem vcf_timestamp_check_witness :
    verifyCascadingFields envC4 childC4b [parentC4] = (.error .invalidTimestamp, none) ∧
    parentC4.time ≤ childC4.time := by
  constructor
  · exact (vcf_timestamp_check envC4 childC4b [parentC4] 2 rfl (by decide)).1
      parentC4 (by decide) (by decide)
  · exact (vcf_timestamp_check envC4 childC4 [parentC4] 2 rfl (by decide)).2
      (by decide) parentC4 (by decide)

/-! ## C9: the stateless checks of verifyHeader -/

/-- C9: verifyHeader performs its stateless checks before any
parent-dependent check, in order: nil Number is rejected with
UnknownBlock, a future Time with FutureBlock, an Extra shorter than the
32 vanity bytes with MissingVanity, shorter than 32 + 65 bytes with
MissingSignature, a nonzero MixDigest with InvalidMixDigest, a wrong
UncleHash with InvalidUncleHash; only when all pass is the
parent-dependent verifyCascadingFields consulted. -/
theorem verifyHeader_stateless_checks (env : Env σ) (header : Header)
    (parents : List Header) :
    (header.number = none →
      verifyHeader env header parents = .error .unknownBlock) ∧
    (header.number ≠ none → uint64OfInt env.now < header.time →
      verifyHeader env header parents = .error .futureBlock) ∧
    (header.number ≠ none → header.time ≤ uint64OfInt env.now →
      header.extra.length < extraVanity →
      verifyHeader env header parents = .error .missingVanity) ∧
    (header.number ≠ none → header.time ≤ uint64OfInt env.now →
      extraVanity ≤ header.extra.length →
      header.extra.length < extraVanity + extraSeal →
      verifyHeader env header parents = .error .missingSignature) ∧
    (header.number ≠ none → header.time ≤ uint64OfInt env.now →
      extraVanity + extraSeal ≤ header.extra.length →
      header.mixDigest ≠ 0 →
      verifyHeader env header parents = .error .invalidMixDigest) ∧
    (header.number ≠ none → header.time ≤ uint64OfInt env.now →
      extraVanity + extraSeal ≤ header.extra.length →
      header.mixDigest = 0 → header.uncleHash ≠ uncleHash →
      verifyHeader env header parents = .error .invalidUncleHash) ∧
    (header.number ≠ none → header.time ≤ uint64OfInt env.now →
      extraVanity + extraSeal ≤ header.extra.length →
      header.mixDigest = 0 → header.uncleHash = uncleHash →
      verifyHeader env header parents =
        (verifyCascadingFields env header parents).1) := by
  refine ⟨?_, ?_, ?_, ?_, ?_, ?_, ?_⟩
  · intro h; simp [verifyHeader, h]
  · intro h1 h2
    obtain ⟨m, hm⟩ := Option.ne_none_iff_exists'.mp h1
    simp [verifyHeader, hm, if_pos h2]
  · intro h1 h2 h3
    obtain ⟨m, hm⟩ := Option.ne_none_iff_exists'.mp h1
    simp only [verifyHeader, hm]
    rw [if_neg (by omega), if_pos h3]
  · intro h1 h2 h3 h4
    obtain ⟨m, hm⟩ := Option.ne_none_iff_exists'.mp h1
    simp only [verifyHeader, hm]
    rw [if_neg (by omega), if_neg (by omega), if_pos h4]
  · intro h1 h2 h3 h4
    obtain ⟨m, hm⟩ := Option.ne_none_iff_exists'.mp h1
    simp only [verifyHeader, hm]
    rw [if_neg (by omega), if_neg (by omega), if_neg (by omega), if_pos h4]
  · intro h1 h2 h3 h4 h5
    obtain ⟨m, hm⟩ := Option.ne_none_iff_exists'.mp h1
    simp only [verifyHeader, hm]
    rw [if_neg (by omega), if_neg (by omega), if_neg (by omega),
        if_neg (by simp [h4]), if_pos h5]
  · intro h1 h2 h3 h4 h5
    obtain ⟨m, hm⟩ := Option.ne_none_iff_exists'.mp h1
    simp only [verifyHeader, hm]
    rw [if_neg (by omega), if_neg (by omega), if_neg (by omega),
        if_neg (by simp [h4]), if_neg (by simp [h5])]

/-- The environment of the stateless-check witness scenarios. -/
def envW : Env Unit := { baseEnv with now := 1000 }

/-- A header passing every stateless check (wall clock at 1000). -/
def hW : Header :=
  { parentHash := 0, uncleHash := uncleHash, coinbase := 0, root := 0,
    txHash := 0, receiptHash := 0, bloom := 0, difficulty := 1,
    number := some 1, gasLimit := 0, gasUsed := 0, time := 500,
    extra := List.replicate 97 0, mixDigest := 0, nonce := 0 }

theorem verifyHeader_stateless_checks_witness :
    verifyHeader envW { hW with number := none } [] = .error .unknownBlock ∧
    verifyHeader envW { hW with time := 2000 } [] = .error .futureBlock ∧
    verifyHeader envW { hW with extra := List.replicate 10 0 } [] = .error .missingVanity ∧
    verifyHeader envW { hW with extra := List.replicate 50 0 } [] = .error .missingSignature ∧
    verifyHeader envW { hW with mixDigest := 5 } [] = .error .invalidMixDigest ∧
    verifyHeader envW { hW with uncleHash := 3 } [] = .error .invalidUncleHash ∧
    verifyHeader envW hW [] = (verifyCascadingFields envW hW []).1 := by
  refine ⟨?_, ?_, ?_, ?_, ?_, ?_, ?_⟩
  · exact (verifyHeader_stateless_checks envW { hW with number := none } []).1 rfl
  · exact (verifyHeader_stateless_checks envW { hW with time := 2000 } []).2.1
      (by decide) (by decide)
  · exact (verifyHeader_stateless_checks envW { hW with extra := List.replicate 10 0 } []).2.2.1
      (by decide) (by decide) (by decide)
  · exact (verifyHeader_stateless_checks envW { hW with extra := List.replicate 50 0 } []).2.2.2.1
      (by decide) (by decide) (by decide) (by decide)
  · exact (verifyHeader_stateless_checks envW { hW with mixDigest := 5 } []).2.2.2.2.1
      (by decide) (by decide) (by decide) (by decide)
  · exact (verifyHeader_stateless_checks envW { hW with uncleHash := 3 } []).2.2.2.2.2.1
      (by decide) (by decide) (by decide) (by decide) (by decide)
  · exact (verifyHeader_stateless_checks envW hW []).2.2.2.2.2.2
      (by decide) (by decide) (by decide) (by decide) (by decide)

/-! ## Inversion lemmas for verifyCascadingFields -/

theorem epochContinuity_iff (hx px : HeaderExtra) (t : Nat) :
    epochContinuity hx px t = true ↔
      ((hx.epoch = px.epoch ∧ hx.epochTime = px.epochTime) ∨
       (hx.epoch = px.epoch + 1 ∧ hx.epochTime = t)) := by
  simp [epochContinuity]

theorem resolveParent_number (env : Env σ) (header : Header) (number : Nat)
    (parents : List Header) (parent : Header)
    (h : resolveParent env header number parents = some parent) :
    parent.number = some (number - 1) ∧
    env.headerHash parent = header.parentHash := by
  simp only [resolveParent] at h
  split at h
  · simp at h
  · split at h
    next hcond =>
      obtain rfl : _ = parent := Option.some.inj h
      exact hcond
    next => simp at h

theorem loadStage_eq_nongenesis (env : Env σ) (parent : Header)
    (hx px : HeaderExtra) (cfg : SenateConfig) (snap : σ)
    (hne : parent.number ≠ some 0)
    (hd : env.decodeExtra parent.extra = .ok px)
    (hc : env.chainConfigByHash px.root.configHash = .ok cfg)
    (hl : env.loadSnapshot px.root = .ok snap) :
    loadStage env parent hx = .ok (px, cfg, snap) := by
  simp [loadStage, if_neg hne, hd, hc, hl]

theorem loadStage_inv_nongenesis (env : Env σ) (parent : Header)
    (hx px : HeaderExtra) (cfg : SenateConfig) (snap : σ)
    (hne : parent.number ≠ some 0)
    (h : loadStage env parent hx = .ok (px, cfg, snap)) :
    env.decodeExtra parent.extra = .ok px ∧
    env.chainConfigByHash px.root.configHash = .ok cfg ∧
    env.loadSnapshot px.root = .ok snap := by
  simp only [loadStage, if_neg hne] at h
  split at h
  · simp at h
  next px' hd =>
    split at h
    · simp at h
    next cfg' hc =>
      split at h
      · simp at h
      next snap' hl =>
        simp only [Except.ok.injEq, Prod.mk.injEq] at h
        obtain ⟨rfl, rfl, rfl⟩ := h
        exact ⟨hd, hc, hl⟩

theorem loadStage_inv_genesis (env : Env σ) (parent : Header)
    (hx px : HeaderExtra) (cfg : SenateConfig) (snap : σ)
    (h0 : parent.number = some 0)
    (h : loadStage env parent hx = .ok (px, cfg, snap)) :
    px = hx ∧ cfg = env.senateConfig ∧ env.newSnapshot = .ok snap := by
  simp only [loadStage, if_pos h0] at h
  split at h
  · simp at h
  next snap' hs =>
    simp only [Except.ok.injEq, Prod.mk.injEq] at h
    obtain ⟨rfl, rfl, rfl⟩ := h
    exact ⟨rfl, rfl, hs⟩

theorem vcfRoot_inv (env : Env σ) (header : Header) (parents : List Header)
    (parent : Header) (hx px : HeaderExtra) (cfg : SenateConfig) (snap2 : σ)
    (root : Root)
    (h : vcfRoot env header parents = .ok (parent, hx, px, cfg, snap2, root)) :
    resolveParent env header (header.number.getD 0) parents = some parent ∧
    parent.time ≤ header.time ∧
    env.decodeExtra header.extra = .ok hx ∧
    ∃ snap0, loadStage env parent hx = .ok (px, cfg, snap0) ∧
      epochContinuity hx px header.time = true ∧
      env.applySnap snap0 header hx = .ok snap2 ∧
      env.snapRoot snap2 = .ok root := by
  simp only [vcfRoot] at h
  split at h
  · simp at h
  next parent' hres =>
    split at h
    · simp at h
    next hts =>
      split at h
      · simp at h
      next hx' hd =>
        split at h
        · simp at h
        next px' cfg' snap' hls =>
          split at h
          next hcont =>
            split at h
            · simp at h
            next snap2' ha =>
              split at h
              · simp at h
              next root' hr =>
                simp only [Except.ok.injEq, Prod.mk.injEq] at h
                obtain ⟨rfl, rfl, rfl, rfl, rfl, rfl⟩ := h
                exact ⟨hres, by omega, hd, snap', hls, hcont, ha, hr⟩
          next => simp at h

theorem vcfRoot_eq_stage (env : Env σ) (header parent : Header)
    (parents : List Header) (hx : HeaderExtra)
    (hres : resolveParent env header (header.number.getD 0) parents = some parent)
    (hts : parent.time ≤ header.time)
    (hd : env.decodeExtra header.extra = .ok hx) :
    vcfRoot env header parents =
      (match loadStage env parent hx with
       | .error e => .error e
       | .ok (px, cfg, snap) =>
         if epochContinuity hx px header.time then
           match env.applySnap snap header hx with
           | .error e => .error e
           | .ok snap2 =>
             match env.snapRoot snap2 with
             | .error e => .error e
             | .ok root => .ok (parent, hx, px, cfg, snap2, root)
         else .error .invalidTimestamp) := by
  simp only [vcfRoot, hres, hd]
  rw [if_neg (by omega)]

theorem vcf_of_vcfRoot_error (env : Env σ) (header : Header)
    (parents : List Header) (e : VError)
    (hn0 : header.number.getD 0 ≠ 0)
    (h : vcfRoot env header parents = .error e) :
    verifyCascadingFields env header parents = (.error e, none) := by
  simp [verifyCascadingFields, if_neg hn0, h]

theorem vcf_ok_inv (env : Env σ) (header : Header) (parents : List Header)
    (hn0 : header.number.getD 0 ≠ 0)
    (h : (verifyCascadingFields env header parents).1 = .ok ()) :
    ∃ parent hx px cfg snap root,
      vcfRoot env header parents = .ok (parent, hx, px, cfg, snap, root) ∧
      root = hx.root ∧
      (verifyCascadingFields env header parents).2 = some hx.root := by
  have hv : verifyCascadingFields env header parents =
      (match vcfRoot env header parents with
       | .error e => (.error e, none)
       | .ok (parent, hx, _, cfg, snap, root) =>
         if root = hx.root then
           match verifySeal env cfg header parent with
           | .error e => (.error e, none)
           | .ok _ =>
             if env.commitSnap snap root then (.ok (), some root)
             else (.error .snapshotWriteFailed, none)
         else (.error .invalidTrieRoot, none)) := by
    simp [verifyCascadingFields, if_neg hn0]
  rw [hv] at h ⊢
  split at h
  · simp at h
  next parent hx px cfg snap root heq =>
    split at h
    next hroot =>
      split at h
      · simp at h
      next u hs =>
        split at h
        next hcm =>
          refine ⟨parent, hx, px, cfg, snap, root, heq, hroot, ?_⟩
          rw [if_pos hroot, if_pos hcm, hroot]
        next => simp at h
    next => simp at h

theorem vcf_invalidTrieRoot_of (env : Env σ) (header : Header)
    (parents : List Header) (parent : Header) (hx px : HeaderExtra)
    (cfg : SenateConfig) (snap : σ) (root : Root)
    (hn0 : header.number.getD 0 ≠ 0)
    (h : vcfRoot env header parents = .ok (parent, hx, px, cfg, snap, root))
    (hne : root ≠ hx.root) :
    verifyCascadingFields env header parents = (.error .invalidTrieRoot, none) := by
  simp [verifyCascadingFields, if_neg hn0, h, if_neg hne]

theorem vcfRoot_recomputeRoot (env : Env σ) (header : Header)
    (parents : List Header) (parent : Header) (hx px : HeaderExtra)
    (cfg : SenateConfig) (snap2 : σ) (root : Root)
    (h : vcfRoot env header parents = .ok (parent, hx, px, cfg, snap2, root)) :
    recomputeRoot env header parent hx = .ok root := by
  obtain ⟨hres, hts, hd, snap0, hls, hcont, ha, hr⟩ :=
    vcfRoot_inv env header parents parent hx px cfg snap2 root h
  by_cases h0 : parent.number = some 0
  · obtain ⟨rfl, rfl, hns⟩ := loadStage_inv_genesis env parent hx px cfg snap0 h0 hls
    simp [recomputeRoot, if_pos h0, hns, ha, hr]
  · obtain ⟨hdp, hc, hl⟩ := loadStage_inv_nongenesis env parent hx px cfg snap0 h0 hls
    simp [recomputeRoot, if_neg h0, hdp, hl, ha, hr]

/-! ## C1: acceptance requires the declared root to be the recomputed root -/

/-- C1: for every non-genesis header H with parent P, verifyCascadingFields
accepts H only if the Root declared in H's decoded extra equals the
composite root obtained by loading the snapshot at P's declared Root (or a
fresh empty snapshot when P is the genesis block) and applying H's extra
log to it (recomputeRoot); conversely, when the recomputed root differs
from the declared one, the function returns the invalid-trie-root error
and does not commit the snapshot (the commit record stays `none`). -/
theorem vcf_root_check (env : Env σ) (header : Header) (parents : List Header)
    (n : Nat) (hn : header.number = some n) (hn0 : n ≠ 0) :
    ((verifyCascadingFields env header parents).1 = .ok () →
      ∃ parent hx, resolveParent env header n parents = some parent ∧
        env.decodeExtra header.extra = .ok hx ∧
        recomputeRoot env header parent hx = .ok hx.root ∧
        (verifyCascadingFields env header parents).2 = some hx.root) ∧
    (∀ parent hx px cfg snap root,
      vcfRoot env header parents = .ok (parent, hx, px, cfg, snap, root) →
      recomputeRoot env header parent hx = .ok root) ∧
    (∀ parent hx px cfg snap root,
      vcfRoot env header parents = .ok (parent, hx, px, cfg, snap, root) →
      root ≠ hx.root →
      verifyCascadingFields env header parents = (.error .invalidTrieRoot, none)) := by
  have hgd : header.number.getD 0 = n := by rw [hn]; rfl
  refine ⟨?_, ?_, ?_⟩
  · intro hok
    obtain ⟨parent, hx, px, cfg, snap, root, hroot, hre, h2⟩ :=
      vcf_ok_inv env header parents (by rw [hgd]; exact hn0) hok
    obtain ⟨hres, -, hd, -⟩ :=
      vcfRoot_inv env header parents parent hx px cfg snap root hroot
    refine ⟨parent, hx, by rw [hgd] at hres; exact hres, hd, ?_, h2⟩
    have hrr := vcfRoot_recomputeRoot env header parents parent hx px cfg snap root hroot
    rw [hre] at hrr
    exact hrr
  · intro parent hx px cfg snap root h
    exact vcfRoot_recomputeRoot env header parents parent hx px cfg snap root h
  · intro parent hx px cfg snap root h hne
    exact vcf_invalidTrieRoot_of env header parents parent hx px cfg snap root
      (by rw [hgd]; exact hn0) h hne

/-- The parent of the root-check scenario. -/
def parentC1 : Header :=
  { parentHash := 0, uncleHash := uncleHash, coinbase := 0, root := 0,
    txHash := 0, receiptHash := 0, bloom := 0, difficulty := 1,
    number := some 1, gasLimit := 0, gasUsed := 0, time := 500,
    extra := [1], mixDigest := 0, nonce := 88 }

/-- A child of parentC1 declaring root rootA. -/
def childC1 : Header :=
  { parentC1 with
    number := some 2
    parentHash := 88
    time := 510
    extra := List.replicate 97 3
    nonce := 0 }

/-- An environment whose snapshot recomputes exactly rootA. -/
def envC1 : Env Unit :=
  { baseEnv with
    decodeExtra := fun b =>
      if b = [1] then .ok ⟨rootA, 4, 400⟩
      else if b = List.replicate 97 3 then .ok ⟨rootA, 4, 400⟩
      else .error .malformedExtra
    snapRoot := fun _ => .ok rootA }

/-- The same environment with a snapshot that recomputes a different
root than the declared one. -/
def envC1bad : Env Unit := { envC1 with snapRoot := fun _ => .ok Root.zero }

theorem vcf_root_check_witness :
    verifyCascadingFields envC1bad childC1 [parentC1] =
      (.error .invalidTrieRoot, none) ∧
    recomputeRoot envC1 childC1 parentC1 ⟨rootA, 4, 400⟩ = .ok rootA := by
  constructor
  · exact (vcf_root_check envC1bad childC1 [parentC1] 2 rfl (by decide)).2.2
      parentC1 ⟨rootA, 4, 400⟩ ⟨rootA, 4, 400⟩ cfgA () Root.zero
      (by decide) (by decide)
  · exact (vcf_root_check envC1 childC1 [parentC1] 2 rfl (by decide)).2.1
      parentC1 ⟨rootA, 4, 400⟩ ⟨rootA, 4, 400⟩ cfgA () rootA (by decide)

/-! ## C3: the epoch-continuity invariant -/

/-- The genesis block of the height-one continuity scenario. -/
def genC3 : Header :=
  { parentHash := 0, uncleHash := uncleHash, coinbase := 0, root := 0,
    txHash := 0, receiptHash := 0, bloom := 0, difficulty := 1,
    number := some 0, gasLimit := 0, gasUsed := 0, time := 10,
    extra := [9], mixDigest := 0, nonce := 55 }

/-- A height-1 child of genC3 declaring the pair (3, 7). -/
def childC3 : Header :=
  { genC3 with
    number := some 1
    parentHash := 55
    time := 50
    extra := List.replicate 97 3
    nonce := 0 }

/-- An environment in which the genesis extra decodes to the pair (9, 9)
while the child declares (3, 7), and the snapshot recomputes rootA. -/
def envC3 : Env Unit :=
  { baseEnv with
    decodeExtra := fun b =>
      if b = [9] then .ok ⟨rootA, 9, 9⟩
      else if b = List.replicate 97 3 then .ok ⟨rootA, 3, 7⟩
      else .error .malformedExtra
    snapRoot := fun _ => .ok rootA }

/-- C3 counterexample: a height-1 header whose (Epoch, EpochTime) pair
(3, 7) equals neither the pair (9, 9) decoded from its genesis parent's
extra nor (parent.Epoch + 1, header.Time) = (10, 50) is nevertheless
fully accepted by verifyCascadingFields — at height 1 the continuity
check compares the child's pair with itself, so the claimed rejection
with ErrInvalidTimestamp does not happen. -/
theorem vcf_height_one_ignores_parent_pair :
    verifyCascadingFields envC3 childC3 [genC3] = (.ok (), some rootA) ∧
    envC3.decodeExtra childC3.extra = .ok ⟨rootA, 3, 7⟩ ∧
    envC3.decodeExtra genC3.extra = .ok ⟨rootA, 9, 9⟩ ∧
    childC3.time = 50 ∧
    ((3 : Nat), (7 : Nat)) ≠ ((9 : Nat), (9 : Nat)) ∧
    ((3 : Nat), (7 : Nat)) ≠ ((9 + 1 : Nat), (50 : Nat)) := by decide

/-- C3 (amended): for every header at height at least 2 that
verifyCascadingFields accepts, the pair (extra.Epoch, extra.EpochTime)
either equals the parent's decoded pair or equals
(parent.Epoch + 1, header.Time), and a header whose pair is neither is
rejected with ErrInvalidTimestamp; at height 1 the check is vacuous (see
the counterexample). -/
theorem vcf_epoch_continuity (env : Env σ) (header : Header)
    (parents : List Header) (n : Nat) (hn : header.number = some n)
    (h2 : 2 ≤ n) :
    ((verifyCascadingFields env header parents).1 = .ok () →
      ∃ parent hx px, resolveParent env header n parents = some parent ∧
        env.decodeExtra header.extra = .ok hx ∧
        env.decodeExtra parent.extra = .ok px ∧
        ((hx.epoch = px.epoch ∧ hx.epochTime = px.epochTime) ∨
         (hx.epoch = px.epoch + 1 ∧ hx.epochTime = header.time))) ∧
    (∀ parent hx px cfg snap,
      resolveParent env header n parents = some parent →
      parent.time ≤ header.time →
      env.decodeExtra header.extra = .ok hx →
      env.decodeExtra parent.extra = .ok px →
      env.chainConfigByHash px.root.configHash = .ok cfg →
      env.loadSnapshot px.root = .ok snap →
      ¬((hx.epoch = px.epoch ∧ hx.epochTime = px.epochTime) ∨
        (hx.epoch = px.epoch + 1 ∧ hx.epochTime = header.time)) →
      verifyCascadingFields env header parents =
        (.error .invalidTimestamp, none)) := by
  have hgd : header.number.getD 0 = n := by rw [hn]; rfl
  have hn0 : header.number.getD 0 ≠ 0 := by rw [hgd]; omega
  constructor
  · intro hok
    obtain ⟨parent, hx, px, cfg, snap, root, hroot, -, -⟩ :=
      vcf_ok_inv env header parents hn0 hok
    obtain ⟨hres, -, hd, snap0, hls, hcont, -, -⟩ :=
      vcfRoot_inv env header parents parent hx px cfg snap root hroot
    have hpn := (resolveParent_number env header _ parents parent hres).1
    have hne : parent.number ≠ some 0 := by rw [hpn, hgd]; simp; omega
    obtain ⟨hdp, -, -⟩ := loadStage_inv_nongenesis env parent hx px cfg snap0 hne hls
    exact ⟨parent, hx, px, by rw [hgd] at hres; exact hres, hd, hdp,
      (epochContinuity_iff hx px header.time).mp hcont⟩
  · intro parent hx px cfg snap hres hts hd hdp hcc hl hnot
    have hpn := (resolveParent_number env header n parents parent hres).1
    have hne : parent.number ≠ some 0 := by rw [hpn]; simp; omega
    have hls := loadStage_eq_nongenesis env parent hx px cfg snap hne hdp hcc hl
    have hstage := vcfRoot_eq_stage env header parent parents hx
      (by rw [hgd]; exact hres) hts hd
    have hcont : epochContinuity hx px header.time = false := by
      rw [Bool.eq_false_iff]
      intro hc
      exact hnot ((epochContinuity_iff hx px header.time).mp hc)
    have hroot : vcfRoot env header parents = .error .invalidTimestamp := by
      rw [hstage, hls]
      simp [hcont]
    exact vcf_of_vcfRoot_error env header parents _ hn0 hroot

/-- The parent of the height-2 continuity witness scenario. -/
def parentC3b : Header :=
  { genC3 with number := some 1, time := 500, extra := [1], nonce := 66 }

/-- A child of parentC3b declaring the parent's own pair. -/
def childC3b : Header :=
  { genC3 with
    number := some 2
    parentHash := 66
    time := 510
    extra := List.replicate 97 4
    nonce := 0 }

/-- The same child declaring a pair that is neither inherited nor a
one-step advance. -/
def childC3c : Header := { childC3b with extra := List.replicate 97 5 }

/-- The environment of the height-2 continuity witness scenario. -/
def envC3b : Env Unit :=
  { baseEnv with
    decodeExtra := fun b =>
      if b = [1] then .ok ⟨rootA, 4, 400⟩
      else if b = List.replicate 97 4 then .ok ⟨rootA, 4, 400⟩
      else if b = List.replicate 97 5 then .ok ⟨rootA, 6, 9999⟩
      else .error .malformedExtra
    snapRoot := fun _ => .ok rootA }

theorem vcf_epoch_continuity_witness :
    (∃ parent hx px, resolveParent envC3b childC3b 2 [parentC3b] = some parent ∧
      envC3b.decodeExtra childC3b.extra = .ok hx ∧
      envC3b.decodeExtra parent.extra = .ok px ∧
      ((hx.epoch = px.epoch ∧ hx.epochTime = px.epochTime) ∨
       (hx.epoch = px.epoch + 1 ∧ hx.epochTime = childC3b.time))) ∧
    verifyCascadingFields envC3b childC3c [parentC3b] =
      (.error .invalidTimestamp, none) := by
  constructor
  · exact (vcf_epoch_continuity envC3b childC3b [parentC3b] 2 rfl (by decide)).1
      (by decide)
  · exact (vcf_epoch_continuity envC3b childC3c [parentC3b] 2 rfl (by decide)).2
      parentC3b ⟨rootA, 6, 9999⟩ ⟨rootA, 4, 400⟩ cfgA ()
      (by decide) (by decide) (by decide) (by decide) (by decide) (by decide)
      (by decide)

/-! ## C10: the height-1 special case of verifyCascadingFields -/

theorem vcf_loadSnapshot_irrelevant_height_one (env : Env σ)
    (f : Root → Except VError σ) (header : Header) (parents : List Header)
    (hn : header.number = some 1) :
    verifyCascadingFields { env with loadSnapshot := f } header parents =
      verifyCascadingFields env header parents := by
  have hgd : header.number.getD 0 = 1 := by rw [hn]; rfl
  obtain ⟨now, scfg, gh, hh, de, ee, ccbh, cco, ns, ls, asn, sr, cs, ce, it, pt, te⟩ := env
  have hvr : vcfRoot ⟨now, scfg, gh, hh, de, ee, ccbh, cco, ns, f, asn, sr, cs, ce, it, pt, te⟩
        header parents =
      vcfRoot ⟨now, scfg, gh, hh, de, ee, ccbh, cco, ns, ls, asn, sr, cs, ce, it, pt, te⟩
        header parents := by
    simp only [vcfRoot, resolveParent, loadStage, hgd]
    split
    · rfl
    next parent heqR =>
      have hp0 : parent.number = some 0 := by
        have := (resolveParent_number
          ⟨now, scfg, gh, hh, de, ee, ccbh, cco, ns, ls, asn, sr, cs, ce, it, pt, te⟩
          header 1 parents parent heqR).1
        simpa using this
      split
      · rfl
      · split
        · rfl
        next hx heqd =>
          rfl
  simp only [verifyCascadingFields, hvr, verifySeal, ecrecover]

/-- C10: for every header at height 1 (genesis parent),
verifyCascadingFields builds a fresh empty snapshot instead of loading
one from the parent's extra (its result is unchanged under an arbitrary
replacement of the loadSnapshot oracle), and the epoch-continuity check
is vacuously satisfied because the parent's extra is taken to be the
child's own decoded extra — the load stage proceeds directly to the
snapshot application, so any declared (Epoch, EpochTime) pair passes. -/
theorem vcf_height_one (env : Env σ) (f : Root → Except VError σ)
    (header : Header) (parents : List Header) (hn : header.number = some 1) :
    (verifyCascadingFields { env with loadSnapshot := f } header parents =
      verifyCascadingFields env header parents) ∧
    (∀ parent hx px cfg snap root,
      vcfRoot env header parents = .ok (parent, hx, px, cfg, snap, root) →
      px = hx ∧ cfg = env.senateConfig) ∧
    (∀ parent hx s,
      resolveParent env header 1 parents = some parent →
      parent.time ≤ header.time →
      env.decodeExtra header.extra = .ok hx →
      env.newSnapshot = .ok s →
      vcfRoot env header parents =
        (match env.applySnap s header hx with
         | .error e => .error e
         | .ok snap2 =>
           match env.snapRoot snap2 with
           | .error e => .error e
           | .ok root => .ok (parent, hx, hx, env.senateConfig, snap2, root))) := by
  have hgd : header.number.getD 0 = 1 := by rw [hn]; rfl
  refine ⟨vcf_loadSnapshot_irrelevant_height_one env f header parents hn, ?_, ?_⟩
  · intro parent hx px cfg snap root h
    obtain ⟨hres, -, -, snap0, hls, -, -, -⟩ :=
      vcfRoot_inv env header parents parent hx px cfg snap root h
    have hp0 : parent.number = some 0 := by
      have := (resolveParent_number env header _ parents parent hres).1
      rw [hgd] at this
      simpa using this
    obtain ⟨h1, h2c, -⟩ := loadStage_inv_genesis env parent hx px cfg snap0 hp0 hls
    exact ⟨h1, h2c⟩
  · intro parent hx s hres hts hd hns
    have hp0 : parent.number = some 0 := by
      have := (resolveParent_number env header 1 parents parent hres).1
      simpa using this
    have hstage := vcfRoot_eq_stage env header parent parents hx
      (by rw [hgd]; exact hres) hts hd
    rw [hstage]
    have hls : loadStage env parent hx = .ok (hx, env.senateConfig, s) := by
      simp [loadStage, if_pos hp0, hns]
    rw [hls]
    simp [epochContinuity]

/-- The genesis block of the concrete height-1 scenario. -/
def genC10 : Header :=
  { parentHash := 0, uncleHash := uncleHash, coinbase := 0, root := 0,
    txHash := 0, receiptHash := 0, bloom := 0, difficulty := 1,
    number := some 0, gasLimit := 0, gasUsed := 0, time := 10,
    extra := [8], mixDigest := 0, nonce := 44 }

/-- A height-1 child of genC10 declaring the arbitrary pair (12, 34). -/
def childC10 : Header :=
  { genC10 with
    number := some 1
    parentHash := 44
    time := 60
    extra := List.replicate 97 6
    nonce := 0 }

/-- The environment of the concrete height-1 scenario. -/
def envC10 : Env Unit :=
  { baseEnv with
    decodeExtra := fun b =>
      if b = [8] then .ok ⟨rootA, 1, 1⟩
      else if b = List.replicate 97 6 then .ok ⟨rootA, 12, 34⟩
      else .error .malformedExtra
    snapRoot := fun _ => .ok rootA }

theorem vcf_height_one_witness :
    verifyCascadingFields
        { envC10 with loadSnapshot := fun _ => .error .snapshotMissing }
        childC10 [genC10] =
      verifyCascadingFields envC10 childC10 [genC10] ∧
    vcfRoot envC10 childC10 [genC10] =
      (match envC10.applySnap () childC10 ⟨rootA, 12, 34⟩ with
       | .error e => .error e
       | .ok snap2 =>
         match envC10.snapRoot snap2 with
         | .error e => .error e
         | .ok root =>
           .ok (genC10, ⟨rootA, 12, 34⟩, ⟨rootA, 12, 34⟩,
                envC10.senateConfig, snap2, root)) := by
  refine ⟨(vcf_height_one envC10 (fun _ => .error .snapshotMissing)
    childC10 [genC10] rfl).1, ?_⟩
  exact (vcf_height_one envC10 (fun _ => .error .snapshotMissing)
    childC10 [genC10] rfl).2.2 genC10 ⟨rootA, 12, 34⟩ ()
    (by decide) (by decide) (by decide) (by decide)

/-! ## C6: Prepare sets the header time to max(parent.Time + Period, now) -/

theorem finishPrepare_inv (env : Env σ) (header : Header) (hx : HeaderExtra)
    (h' : Header) (hx' : HeaderExtra)
    (h : finishPrepare env header hx = .ok (h', hx')) :
    h'.time = header.time ∧ hx' = hx := by
  simp only [finishPrepare] at h
  split at h
  · simp at h
  next data henc =>
    simp only [Except.ok.injEq, Prod.mk.injEq] at h
    obtain ⟨rfl, rfl⟩ := h
    exact ⟨rfl, rfl⟩

theorem prepareTime_max (now : Int) (pt p : Nat) (h1 : pt + p < 2 ^ 63)
    (h2 : 0 ≤ now) (h3 : now < 2 ^ 63) :
    prepareTime now pt p = max (pt + p) now.toNat := by
  simp only [prepareTime, u64, toInt64, uint64OfInt, U64MOD]
  norm_num
  split_ifs <;> omega

/-- C6: for every header at height at least 1 with a resolvable parent,
Prepare sets the header time to parent.Time + config.Period, raised to
the wall clock when that sum lies in the past — under no-overflow side
conditions this equals max(parent.Time + config.Period, now); the config
is the engine's own at height 1 and the parent-extra-identified one
above. -/
theorem Prepare_sets_max_time (env : Env σ) (header : Header) (n : Nat)
    (parent : Header) (hn : header.number = some n) (h1 : 1 ≤ n)
    (hp : env.getHeader header.parentHash (n - 1) = some parent)
    (h' : Header) (hx : HeaderExtra)
    (hok : Prepare env header = .ok (h', hx)) :
    ∃ cfg : SenateConfig,
      ((n = 1 ∧ cfg = env.senateConfig) ∨
       (2 ≤ n ∧ ∃ px, env.decodeExtra parent.extra = .ok px ∧
          env.chainConfigByHash px.root.configHash = .ok cfg)) ∧
      h'.time = prepareTime env.now parent.time cfg.period ∧
      (parent.time + cfg.period < 2 ^ 63 → 0 ≤ env.now → env.now < 2 ^ 63 →
        h'.time = max (parent.time + cfg.period) env.now.toNat) := by
  have hgd : header.number.getD 0 = n := by rw [hn]; rfl
  simp only [Prepare, hgd] at hok
  split at hok
  next heq =>
    rw [hp] at heq
    simp at heq
  next parent' heq =>
    rw [hp] at heq
    obtain rfl : parent = parent' := Option.some.inj heq
    split at hok
    next hone =>
      have ht := (finishPrepare_inv env _ _ h' hx hok).1
      refine ⟨env.senateConfig, .inl ⟨hone, rfl⟩, ht, fun o1 o2 o3 => ?_⟩
      rw [ht, prepareTime_max env.now parent.time env.senateConfig.period o1 o2 o3]
    next hone =>
      split at hok
      · simp at hok
      next px hdp =>
        split at hok
        · simp at hok
        next cfg hcf =>
          have ht := (finishPrepare_inv env _ _ h' hx hok).1
          refine ⟨cfg, .inr ⟨by omega, px, hdp, hcf⟩, ht, fun o1 o2 o3 => ?_⟩
          rw [ht, prepareTime_max env.now parent.time cfg.period o1 o2 o3]

/-- The parent of the prepare-time scenario (Time = 1027). -/
def parentC6 : Header :=
  { parentHash := 0, uncleHash := uncleHash, coinbase := 0, root := 0,
    txHash := 0, receiptHash := 0, bloom := 0, difficulty := 1,
    number := some 5, gasLimit := 0, gasUsed := 0, time := 1027,
    extra := [1], mixDigest := 0, nonce := 0 }

/-- A fresh height-6 header to be prepared. -/
def childC6 : Header :=
  { parentC6 with number := some 6, parentHash := 99, time := 0, extra := [] }

/-- The prepare-time environment: wall clock at 1000, Period = 3. -/
def envC6 : Env Unit :=
  { baseEnv with
    now := 1000
    getHeader := fun h n => if h = 99 ∧ n = 5 then some parentC6 else none
    decodeExtra := fun b =>
      if b = [1] then .ok ⟨rootA, 5, 1000⟩ else .error .malformedExtra }

/-- The header produced by Prepare in the scenario. -/
def prepH6 : Header :=
  { childC6 with
    mixDigest := 0
    difficulty := 1
    time := 1030
    extra := List.replicate 97 0 }

/-- The extra payload produced by Prepare in the scenario. -/
def prepX6 : HeaderExtra := ⟨rootA, 5, 1000⟩

theorem Prepare_sets_max_time_witness :
    Prepare envC6 childC6 = .ok (prepH6, prepX6) ∧
    (∃ cfg : SenateConfig,
      ((6 = 1 ∧ cfg = envC6.senateConfig) ∨
       (2 ≤ 6 ∧ ∃ px, envC6.decodeExtra parentC6.extra = .ok px ∧
          envC6.chainConfigByHash px.root.configHash = .ok cfg)) ∧
      prepH6.time = prepareTime envC6.now parentC6.time cfg.period ∧
      (parentC6.time + cfg.period < 2 ^ 63 → 0 ≤ envC6.now →
        envC6.now < 2 ^ 63 →
        prepH6.time = max (parentC6.time + cfg.period) envC6.now.toNat)) :=
  ⟨by decide,
   Prepare_sets_max_time envC6 childC6 6 parentC6 rfl (by decide) (by decide)
     prepH6 prepX6 (by decide)⟩

/-! ## C2: the exact epoch-boundary scenario -/

/-- The parent of the epoch-boundary scenario:
Epoch 5, EpochTime 1000, Time 1027. -/
def parentC2 : Header :=
  { parentHash := 0, uncleHash := uncleHash, coinbase := 0, root := 0,
    txHash := 0, receiptHash := 0, bloom := 0, difficulty := 1,
    number := some 5, gasLimit := 0, gasUsed := 0, time := 1027,
    extra := [1], mixDigest := 0, nonce := 98 }

/-- A fresh height-6 header to be prepared against parentC2. -/
def childC2 : Header :=
  { parentC2 with number := some 6, parentHash := 98, time := 0, extra := [], nonce := 0 }

/-- A sealed height-6 child with Time 1030 declaring Epoch 5,
EpochTime 1000. -/
def vChildC2 : Header :=
  { childC2 with time := 1030, extra := List.replicate 97 2 }

/-- The epoch-boundary environment: Period = 3, Epoch = 30, wall clock
at 1000. -/
def envC2 : Env Unit :=
  { baseEnv with
    now := 1000
    getHeader := fun h n => if h = 98 ∧ n = 5 then some parentC2 else none
    decodeExtra := fun b =>
      if b = [1] then .ok ⟨rootA, 5, 1000⟩
      else if b = List.replicate 97 2 then .ok ⟨rootA, 5, 1000⟩
      else .error .malformedExtra
    snapRoot := fun _ => .ok rootA }

/-- The same environment with the wall clock at 1031, forcing a prepared
Time of 1031. -/
def envC2b : Env Unit := { envC2 with now := 1031 }

/-- The header produced by Prepare at wall clock 1000 (Time 1030). -/
def prepHC2 : Header :=
  { childC2 with
    mixDigest := 0
    difficulty := 1
    time := 1030
    extra := List.replicate 97 0 }

/-- The header produced by Prepare at wall clock 1031 (Time 1031). -/
def prepHC2b : Header := { prepHC2 with time := 1031 }

/-- C2 counterexample: with Period = 3 and Epoch = 30 and a parent with
Epoch 5, EpochTime 1000, Time 1027, Prepare on the child computes
Time 1030 but keeps the pair (5, 1000) — not the claimed (6, 1030),
because (1030 - 1000) % 30 = 0 fails the advance condition — and the
verifier fully accepts, rather than rejecting with InvalidTimestamp, a
child with Time 1030 that still declares Epoch 5. -/
theorem prepare_epoch_boundary_counterexample :
    Prepare envC2 childC2 = .ok (prepHC2, ⟨rootA, 5, 1000⟩) ∧
    prepHC2.time = 1030 ∧
    ((5 : Nat), (1000 : Nat)) ≠ ((6 : Nat), (1030 : Nat)) ∧
    verifyCascadingFields envC2 vChildC2 [parentC2] = (.ok (), some rootA) ∧
    (verifyCascadingFields envC2 vChildC2 [parentC2]).1 ≠ .error .invalidTimestamp ∧
    envC2.decodeExtra vChildC2.extra = .ok ⟨rootA, 5, 1000⟩ ∧
    vChildC2.time = 1030 := by decide

/-- C2 (amended): for every prepared header at height at least 2, the
produced extra advances the epoch exactly when
(Time - parent.EpochTime) / Epoch >= 1 and
(Time - parent.EpochTime) % Epoch > 0 (with wrapping uint64
subtraction), setting (parent.Epoch + 1, Time), and inherits the
parent's (Root, Epoch, EpochTime) otherwise.  In the concrete scenario
(Period 3, Epoch 30, parent Epoch 5, EpochTime 1000, Time 1027): the
child prepared at Time 1030 keeps (5, 1000) because 1030 - 1000 is an
exact multiple of 30, the child prepared at Time 1031 advances to
(6, 1031), and the verifier accepts the Time-1030 child declaring
Epoch 5 rather than rejecting it with InvalidTimestamp. -/
theorem prepare_epoch_boundary_behavior :
    (∀ (τ : Type) (env : Env τ) (header : Header) (n : Nat) (parent : Header)
      (px : HeaderExtra) (cfg : SenateConfig) (h' : Header) (hx : HeaderExtra),
      header.number = some n → 2 ≤ n →
      env.getHeader header.parentHash (n - 1) = some parent →
      env.decodeExtra parent.extra = .ok px →
      env.chainConfigByHash px.root.configHash = .ok cfg →
      Prepare env header = .ok (h', hx) →
      hx = (if 1 ≤ u64sub h'.time px.epochTime / cfg.epoch ∧
              0 < u64sub h'.time px.epochTime % cfg.epoch then
              { root := px.root, epoch := px.epoch + 1, epochTime := h'.time }
            else
              { root := px.root, epoch := px.epoch,
                epochTime := px.epochTime })) ∧
    Prepare envC2 childC2 = .ok (prepHC2, ⟨rootA, 5, 1000⟩) ∧
    Prepare envC2b childC2 = .ok (prepHC2b, ⟨rootA, 6, 1031⟩) ∧
    verifyCascadingFields envC2 vChildC2 [parentC2] = (.ok (), some rootA) := by
  refine ⟨?_, by decide, by decide, by decide⟩
  intro τ env header n parent px cfg h' hx hn h2 hp hdp hcf hok
  have hgd : header.number.getD 0 = n := by rw [hn]; rfl
  simp only [Prepare, hgd] at hok
  split at hok
  next heq =>
    rw [hp] at heq
    simp at heq
  next parent' heq =>
    rw [hp] at heq
    obtain rfl : parent = parent' := Option.some.inj heq
    split at hok
    next hone => exact absurd hone (by omega)
    next hone =>
      split at hok
      · simp at hok
      next px' hdp' =>
        rw [hdp] at hdp'
        obtain rfl : px = px' := Except.ok.inj hdp'
        split at hok
        · simp at hok
        next cfg' hcf' =>
          rw [hcf] at hcf'
          obtain rfl : cfg = cfg' := Except.ok.inj hcf'
          obtain ⟨ht, hhx⟩ := finishPrepare_inv env _ _ h' hx hok
          have ht' : h'.time = prepareTime env.now parent.time cfg.period := by
            simpa using ht
          rw [hhx, ht']

theorem prepare_epoch_boundary_behavior_witness :
    (⟨rootA, 5, 1000⟩ : HeaderExtra) =
      (if 1 ≤ u64sub prepHC2.time (1000 : Nat) / (30 : Nat) ∧
          0 < u64sub prepHC2.time 1000 % 30 then
        { root := rootA, epoch := 5 + 1, epochTime := prepHC2.time }
      else { root := rootA, epoch := 5, epochTime := 1000 }) :=
  prepare_epoch_boundary_behavior.1 Unit envC2 childC2 6 parentC2
    ⟨rootA, 5, 1000⟩ cfgA prepHC2 ⟨rootA, 5, 1000⟩ rfl (by decide) (by decide)
    (by decide) (by decide) (by decide)

/-! ## C7: Finalize aborts instead of returning errors -/

/-- A header whose extra payload does not decode. -/
def hC7bad : Header :=
  { parentHash := 0, uncleHash := uncleHash, coinbase := 0, root := 0,
    txHash := 0, receiptHash := 0, bloom := 0, difficulty := 1,
    number := some 3, gasLimit := 0, gasUsed := 0, time := 100,
    extra := [7], mixDigest := 0, nonce := 0 }

/-- The environment for the undecodable-extra Finalize scenario. -/
def envC7 : Env Unit := baseEnv

/-- The parent of the missing-snapshot Finalize scenario. -/
def parentC7 : Header :=
  { hC7bad with number := some 2, extra := [1], nonce := 97 }

/-- A well-formed height-3 header whose parent snapshot is missing. -/
def hC7 : Header :=
  { hC7bad with parentHash := 97, extra := List.replicate 97 2 }

/-- An environment whose snapshot store cannot resolve the parent
root. -/
def envC7b : Env Unit :=
  { baseEnv with
    getHeader := fun h n => if h = 97 ∧ n = 2 then some parentC7 else none
    decodeExtra := fun b =>
      if b = [1] then .ok ⟨rootA, 4, 400⟩
      else if b = List.replicate 97 2 then .ok ⟨rootA, 4, 400⟩
      else .error .malformedExtra
    loadSnapshot := fun _ => .error .snapshotMissing }

/-- C7: the claimed propagation policy does not hold in Finalize.  A
failure to decode the header's own extra aborts the process (the Go
panic guarding decodeHeaderExtra; Finalize has no error return, so an
error result of the model denotes that abort) instead of being surfaced
as a returned error.  A failure to load the parent snapshot is neither
returned nor aborted on: the shadowed `err` drops it, and Finalize runs
to completion on a nil snapshot — here the load oracle fails on the
parent's declared root, yet Finalize returns successfully.  SenateRLP's
documented short-extra abort is exhibited alongside. -/
theorem Finalize_panics_on_failures :
    Finalize envC7 hC7bad = .error .malformedExtra ∧
    envC7b.loadSnapshot rootA = .error .snapshotMissing ∧
    Finalize envC7b hC7 = .ok () ∧
    SenateRLP { hC7bad with extra := [] } = .error .shortExtraAbort := by
  decide

end Senate
